import Mathlib

/-!
Shallow embedding of the starsim vital-dynamics engine
(`src/starsim/demographics.py`) and proofs about it.

Python floats are modelled as rationals (ℚ); `np.nan` slots of float
arrays are modelled as `Option ℚ` with `none` for nan (numpy comparisons
against nan are false). Per-UID boolean state arrays are modelled as
functions `Nat → Bool`.
-/

namespace Starsim

/-- `np.clip(x, a_min=0, a_max=1)`. -/
def clip01 (x : ℚ) : ℚ := min (max x 0) 1

/-- `np.digitize(x, bins)` (default `right=False`) for increasing `bins`:
the number of breakpoints `b` with `b ≤ x`. -/
def digitize (x : ℚ) (bins : List ℚ) : Nat :=
  bins.countP (fun b => decide (b ≤ x))

/-- Numpy integer indexing `vals[i]`, which wraps a negative index `i`
to `len + i`; out-of-range indices raise, modelled by `none`. -/
def npIndex (vals : List ℚ) (i : Int) : Option ℚ :=
  if 0 ≤ i then vals.get? i.toNat
  else if i.natAbs ≤ vals.length then vals.get? (vals.length - i.natAbs)
  else none

/-- Numpy integer-index assignment `a[i] = v`, with negative-index wrap. -/
def npSet (a : List ℚ) (i : Int) (v : ℚ) : List ℚ :=
  if 0 ≤ i then a.set i.toNat v
  else if i.natAbs ≤ a.length then a.set (a.length - i.natAbs) v
  else a

/-- Insert into a sorted list of integers (helper for `sortedUnique`). -/
def insertSorted (x : Int) : List Int → List Int
  | [] => [x]
  | y :: ys => if x ≤ y then x :: y :: ys else y :: insertSorted x ys

/-- Ascending insertion sort on integers. -/
def sortInt (xs : List Int) : List Int := xs.foldr insertSorted []

/-- The sorted distinct values of a list, as returned by `np.unique`. -/
def sortedUnique (xs : List Int) : List Int := sortInt xs.eraseDups

/-- Number of occurrences of `v` in `xs`. -/
def countOf (xs : List Int) (v : Int) : Nat := xs.countP (fun y => decide (y = v))

/-- The scatter `a = np.zeros(n); v, c = np.unique(idxs, return_counts=True); a[v] = c`
used by `Pregnancy.make_fertility_prob_fn` to build per-bin counts. -/
def scatterCounts (n : Nat) (idxs : List Int) : List ℚ :=
  (sortedUnique idxs).foldl (fun a v => npSet a v ((countOf idxs v : Nat) : ℚ))
    (List.replicate n 0)

/-- The age-bin index `np.digitize(age, bins) - 1` computed by
`Deaths.make_death_prob_fn` and `Pregnancy.make_fertility_prob_fn`. -/
def bin_index (bins : List ℚ) (age : ℚ) : Int :=
  (digitize age bins : Int) - 1

/-- One agent's table lookup `s.values[np.digitize(age, s.index) - 1]` in
`Deaths.make_death_prob_fn` (`rates` is the rate row, `bins` its age index). -/
def binned_rate (age : ℚ) (bins rates : List ℚ) : Option ℚ :=
  npIndex rates (bin_index bins age)

/-! ## Births (`Births.get_births` / `Births.add_births`) -/

/-- The agent-array container, restricted to what `Births` touches: the ages
of the living agents. -/
structure People where
  ages : List ℚ

/-- `Births.get_births` with a scalar birth rate:
`scaled_birth_prob = birth_rate * units * rel_birth * dt`, clipped to [0,1],
then `n_new = int(np.floor(alive_count * scaled_birth_prob))`. -/
def get_births (alive_count : Nat) (birth_rate units rel_birth dt : ℚ) : Nat :=
  let scaled_birth_prob := birth_rate * units * rel_birth * dt
  let clipped := clip01 scaled_birth_prob
  (⌊(alive_count : ℚ) * clipped⌋).toNat

/-- `Births.add_births`: grow the population by `get_births` agents and set
the age of each new agent to 0. Returns the new population and `n_new`. -/
def add_births (p : People) (birth_rate units rel_birth dt : ℚ) : People × Nat :=
  let n_new := get_births p.ages.length birth_rate units rel_birth dt
  (⟨p.ages ++ List.replicate n_new 0⟩, n_new)

/-! ## Per-agent probabilities (Deaths, Pregnancy, PregnancyLite) -/

/-- The rate-to-probability scaling of `Deaths.make_death_prob_fn`
(lines 217-219): `np.clip(death_rate * (units * rel_death * dt), 0, 1)`. -/
def death_prob (death_rate units rel_death dt : ℚ) : ℚ :=
  clip01 (death_rate * (units * rel_death * dt))

/-- The per-agent value produced by the final block of
`Pregnancy.make_fertility_prob_fn` (lines 334-340): the resolved rate is
scaled by `units * rel_fertility * dt`, zeroed for non-fecund, infertile,
and out-of-age-range agents, then clipped to [0,1]. -/
def fertility_prob (rate units rel_fertility dt age min_age max_age : ℚ)
    (fecund infertile : Bool) : ℚ :=
  let p := rate * (units * rel_fertility * dt)
  let p := if fecund then p else 0
  let p := if infertile then 0 else p
  let p := if age < min_age ∨ age > max_age then 0 else p
  clip01 p

/-- The per-agent value of `PregnancyLite.time_varying_ASFR` (lines 611-627):
`ASFR.values[np.digitize(age, ASFR.index) - 1] * units * rel_fertility * dt`,
with no clipping step. -/
def time_varying_ASFR (asfr_bins asfr_values : List ℚ)
    (age units rel_fertility dt : ℚ) : Option ℚ :=
  (npIndex asfr_values (bin_index asfr_bins age)).map
    (fun r => r * units * rel_fertility * dt)

/-! ## Pregnancy fertility-rate rescaling (`Pregnancy.make_fertility_prob_fn`) -/

/-- The per-bin counts `age_counts` (resp. `pregnant_age_counts`) built in
`Pregnancy.make_fertility_prob_fn` (lines 319-326): agents are digitized into
the table's age bins and the counts are scattered into a zero array. -/
def bin_counts (bins ages : List ℚ) : List ℚ :=
  scatterCounts bins.length (ages.map (bin_index bins))

/-- `new_denom = age_counts - pregnant_age_counts` (line 329). -/
def adj_denom (bins ages preg_ages : List ℚ) : List ℚ :=
  List.zipWith (fun a b => a - b) (bin_counts bins ages) (bin_counts bins preg_ages)

/-- `num_to_make = new_rate * age_counts` (line 328). -/
def num_to_make (bins base_rates ages : List ℚ) : List ℚ :=
  List.zipWith (fun r c => r * c) base_rates (bin_counts bins ages)

/-- The pregnancy-adjusted per-bin rates of lines 315-330. When anybody is
pregnant, `np.divide(num_to_make, new_denom, where=new_denom>0, out=new_rate)`
divides only where the denominator is positive; where it is not, `out`
keeps the value it already holds, namely the unadjusted table rate. -/
def rescaled_rates (bins base_rates ages preg_ages : List ℚ) : List ℚ :=
  if preg_ages.isEmpty then base_rates
  else
    (List.range bins.length).map (fun j =>
      if 0 < (adj_denom bins ages preg_ages).getD j 0 then
        (num_to_make bins base_rates ages).getD j 0
          / (adj_denom bins ages preg_ages).getD j 0
      else base_rates.getD j 0)

/-! ## Pregnancy state machine -/

/-- The per-agent demographic state arrays declared by `Pregnancy`
(`define_states`, lines 272-283), as functions of the agent UID.
Float arrays default to nan, modelled as `none`. -/
structure PregState where
  infertile : Nat → Bool
  fecund : Nat → Bool
  pregnant : Nat → Bool
  postpartum : Nat → Bool
  child_uid : Nat → Option Nat
  dur_postpartum : Nat → Option ℚ
  ti_pregnant : Nat → Option ℚ
  ti_delivery : Nat → Option ℚ
  ti_postpartum : Nat → Option ℚ
  ti_dead : Nat → Option ℚ

/-- `v ≤ t` for a float slot that may hold nan (`none`): every numpy
comparison against nan is false. -/
def leNan (o : Option ℚ) (t : ℚ) : Bool :=
  match o with
  | some v => decide (v ≤ t)
  | none => false

/-- The delivery mask of `Pregnancy.update_states` (line 407):
`pregnant & (ti_delivery <= ti)`, evaluated on the incoming state. -/
def deliveries (s : PregState) (ti : ℚ) (u : Nat) : Bool :=
  s.pregnant u && leNan (s.ti_delivery u) ti

/-- The postpartum-exit mask of `Pregnancy.update_states` (line 440):
`postpartum & (ti_postpartum <= ti)`, where `postpartum` has already been
set to true for this step's deliveries. -/
def pp_exit (s : PregState) (ti : ℚ) (u : Nat) : Bool :=
  (if deliveries s ti u then true else s.postpartum u)
    && leNan (s.ti_postpartum u) ti

/-- `Pregnancy.update_states` (lines 403-448) on the per-agent state:
deliveries flip pregnant→postpartum and clear fecund, then agents past
`ti_postpartum` leave postpartum, become fecund again and have `child_uid`
cleared. The two sequential array updates of the source are flattened into
one record update; the network bookkeeping only touches network layers, and
the `request_death` call for maternal deaths only notifies the people
container, so neither changes the fields modelled here. -/
def update_states (s : PregState) (ti : ℚ) : PregState :=
  { s with
    pregnant := fun u => if deliveries s ti u then false else s.pregnant u
    postpartum := fun u =>
      if pp_exit s ti u then false
      else if deliveries s ti u then true else s.postpartum u
    fecund := fun u =>
      if pp_exit s ti u then true
      else if deliveries s ti u then false else s.fecund u
    child_uid := fun u => if pp_exit s ti u then none else s.child_uid u }

/-- `Pregnancy.set_prognoses` (lines 499-524): `uids` are the newly
conceived agents, `dur_preg` the gestation duration, `dur_pp u` the
postpartum duration sampled for `u`, `dead u` the maternal-death Bernoulli
draw for `u`. `ti_delivery = ti + dur_preg`, `ti_postpartum = ti_delivery +
dur_postpartum` (no division by dt), and `ti_dead = ti + dur_preg` for the
maternal deaths. -/
def set_prognoses (s : PregState) (uids : List Nat) (ti dur_preg : ℚ)
    (dur_pp : Nat → ℚ) (dead : Nat → Bool) : PregState :=
  { s with
    fecund := fun u => if u ∈ uids then false else s.fecund u
    pregnant := fun u => if u ∈ uids then true else s.pregnant u
    ti_pregnant := fun u => if u ∈ uids then some ti else s.ti_pregnant u
    ti_delivery := fun u =>
      if u ∈ uids then some (ti + dur_preg) else s.ti_delivery u
    ti_postpartum := fun u =>
      if u ∈ uids then some ((ti + dur_preg) + dur_pp u) else s.ti_postpartum u
    dur_postpartum := fun u =>
      if u ∈ uids then some (dur_pp u) else s.dur_postpartum u
    ti_dead := fun u =>
      if u ∈ uids && dead u then some (ti + dur_preg) else s.ti_dead u }

/-- `Pregnancy.update_death` (lines 526-548) on the per-agent state: the
first block only submits neonates of dying pregnant mothers to the people
container; the second block resets the state of every mother whose unborn
child (age < 0) is among the removed agents. -/
def update_death (s : PregState) (death_uids : List Nat) (age : Nat → ℚ)
    (parent : Nat → Nat) : PregState :=
  let mothers := (death_uids.filter (fun u => decide (age u < 0))).map parent
  { s with
    pregnant := fun u => if u ∈ mothers then false else s.pregnant u
    fecund := fun u => if u ∈ mothers then true else s.fecund u
    postpartum := fun u => if u ∈ mothers then false else s.postpartum u
    child_uid := fun u => if u ∈ mothers then none else s.child_uid u
    ti_delivery := fun u => if u ∈ mothers then none else s.ti_delivery u
    ti_postpartum := fun u => if u ∈ mothers then none else s.ti_postpartum u }

/-- `Pregnancy.make_pregnancies` (lines 450-466): the stochastic filter's
selection is the parameter `conceive_uids`; a `ValueError` is raised when
any selected agent is already pregnant, otherwise `set_prognoses` runs on
exactly the selected agents (it is not called at all when the selection is
empty). -/
def make_pregnancies (s : PregState) (conceive_uids : List Nat)
    (ti dur_preg : ℚ) (dur_pp : Nat → ℚ) (dead : Nat → Bool) :
    Except String PregState :=
  if conceive_uids.any (fun u => s.pregnant u) then
    Except.error "New conceptions registered in pregnant agent(s)"
  else if 0 < conceive_uids.length then
    Except.ok (set_prognoses s conceive_uids ti dur_preg dur_pp dead)
  else
    Except.ok s

/-- At most one of fecund/pregnant/postpartum is set for agent `u`. -/
def atMostOne (s : PregState) (u : Nat) : Prop :=
  (s.fecund u).toNat + (s.pregnant u).toNat + (s.postpartum u).toNat ≤ 1

/-- The §3 exclusivity invariant, for every agent. -/
def exclusive (s : PregState) : Prop := ∀ u, atMostOne s u

/-- A fresh all-default state: every agent fecund, nothing else set
(`fecund` has `default=True`, line 274). -/
def pregState0 : PregState :=
  { infertile := fun _ => false
    fecund := fun _ => true
    pregnant := fun _ => false
    postpartum := fun _ => false
    child_uid := fun _ => none
    dur_postpartum := fun _ => none
    ti_pregnant := fun _ => none
    ti_delivery := fun _ => none
    ti_postpartum := fun _ => none
    ti_dead := fun _ => none }

/-! ## PregnancyLite state machine -/

/-- The per-agent state arrays of `PregnancyLite` (`add_states`,
lines 591-597): no fecundity or maternal-death tracking. -/
structure LiteState where
  pregnant : Nat → Bool
  postpartum : Nat → Bool
  child_uid : Nat → Option Nat
  ti_delivery : Nat → Option ℚ
  ti_postpartum : Nat → Option ℚ

/-- `PregnancyLite.set_prognoses` (lines 732-751): the durations are divided
by `dt` when converted to timestep indices — `ti_delivery = ti + dur_preg/dt`,
`ti_postpartum = ti_delivery + dur_postpartum/dt` — unlike the full
`Pregnancy.set_prognoses`. -/
def lite_set_prognoses (l : LiteState) (uids : List Nat)
    (ti dur_preg dt : ℚ) (dur_pp : Nat → ℚ) : LiteState :=
  { l with
    pregnant := fun u => if u ∈ uids then true else l.pregnant u
    ti_delivery := fun u =>
      if u ∈ uids then some (ti + dur_preg / dt) else l.ti_delivery u
    ti_postpartum := fun u =>
      if u ∈ uids then some ((ti + dur_preg / dt) + dur_pp u / dt)
      else l.ti_postpartum u }

/-- A fresh all-default `PregnancyLite` state. -/
def liteState0 : LiteState :=
  { pregnant := fun _ => false
    postpartum := fun _ => false
    child_uid := fun _ => none
    ti_delivery := fun _ => none
    ti_postpartum := fun _ => none }

/-! ## Births finalize: crude birth rate -/

/-- `np.divide(a, b, where=b>0)` with no `out=` argument: numpy allocates an
*uninitialized* output buffer and writes only where the mask holds, so the
entries where `b > 0` fails keep whatever the fresh buffer happened to hold,
modelled by the `junk` list. -/
def npDivideWherePos (a b junk : List ℚ) : List ℚ :=
  (List.range a.length).map (fun i =>
    if 0 < b.getD i 0 then a.getD i 0 / b.getD i 0 else junk.getD i 0)

/-- The crude-birth-rate series of `Births.finalize` (line 119):
`1/units * np.divide(new/dt_year, n_alive, where=n_alive>0)`. -/
def births_cbr (new n_alive junk : List ℚ) (dt_year units : ℚ) : List ℚ :=
  (npDivideWherePos (new.map (fun x => x / dt_year)) n_alive junk).map
    (fun x => 1 / units * x)

/-! ## Pregnancy burn-in -/

/-- The burn-in indices `np.arange(np.ceil(-1 * dur_pregnancy / dt), 0, 1)`
computed by `Pregnancy.update` and `PregnancyLite.update` (lines 386, 663). -/
def burnin_dtis (dur_pregnancy dt : ℚ) : List Int :=
  (List.range (0 - ⌈-dur_pregnancy / dt⌉).toNat).map
    (fun k : Nat => ⌈-dur_pregnancy / dt⌉ + (k : Int))

/-- The timestep indices at which `do_update` runs when `update` is entered
at `sim.ti = ti` (lines 384-393 and 661-670): at `ti = 0` with burn-in
enabled, `sim.ti` is set to each burn-in index and `do_update` runs there,
then the regular update runs at index 0. -/
def update_run_tis (ti : Int) (burnin : Bool) (dur_pregnancy dt : ℚ) :
    List Int :=
  if ti = 0 ∧ burnin = true then burnin_dtis dur_pregnancy dt ++ [0]
  else [ti]

/-! ## Births tabular data ingestion -/

/-- A pandas frame seen through what `Births` touches: the names of its
index levels and of its columns. -/
structure Frame where
  indexLevels : List String
  cols : List String

/-- `frame.xs(0, level='age')` as applied by `Births.standardize_birth_data`
(line 67): selecting on an index level that does not exist raises a
`KeyError`; otherwise the level is consumed. -/
def xs_age (f : Frame) : Except String Frame :=
  if "age" ∈ f.indexLevels then
    Except.ok { f with indexLevels := f.indexLevels.erase "age" }
  else Except.error "KeyError: level age not found"

/-- Modelled from the spec: `ss.standardize_data` (called on line 65) is
repository code not under `src/`; per §6 it normalizes tabular input into
the canonical rate-table shape, i.e. it yields some frame, taken here as
the parameter `g`. `Births.standardize_birth_data` (lines 63-68) then
applies `.xs(0, level='age')` to it. -/
def standardize_birth_data (g : Frame) : Except String Frame :=
  xs_age g

/-- The default `Births` metadata `data_cols` (line 43):
`dict(year='Year', value='CBR')`. -/
def births_data_cols : List (String × String) :=
  [("year", "Year"), ("value", "CBR")]

/-- Lookup of `metadata.data_cols[k]`; a missing key raises `KeyError`,
modelled by `none`. -/
def lookup_data_col (k : String) : Option String :=
  (births_data_cols.find? (fun p => decide (p.1 = k))).map (fun p => p.2)

/-- `Births.init_pre` (lines 53-61) on a frame-valued `birth_rate`: it
evaluates `birth_rate[data_cols['year']]` and then
`birth_rate[data_cols['cbr']]`; a missing dict key or a missing frame
column raises a `KeyError`. -/
def births_init_pre (g : Frame) : Except String Unit :=
  match lookup_data_col "year" with
  | none => Except.error "KeyError: year"
  | some ycol =>
    if ycol ∈ g.cols then
      match lookup_data_col "cbr" with
      | none => Except.error "KeyError: cbr"
      | some vcol =>
        if vcol ∈ g.cols then Except.ok ()
        else Except.error "KeyError: value column"
    else Except.error "KeyError: year column"

/-! ## Theorems: claims C1, C2, C5 -/

theorem clip01_nonneg (x : ℚ) : 0 ≤ clip01 x :=
  le_min (le_max_right x 0) zero_le_one

theorem clip01_le_one (x : ℚ) : clip01 x ≤ 1 :=
  min_le_right _ _

/-- C1: the claim says an agent whose age is below the table's lowest age
breakpoint resolves to bin 0 and receives the first bin's rate, never a
negative bin index. The code computes `np.digitize(age, bins) - 1`, which is
`-1` for such an agent, and numpy's negative indexing then returns the rate
of the *last* bin: with breakpoints `[0, 5, 10]`, rates `[1, 2, 3]` and
age `-1`, the lookup yields rate 3 (last bin), not rate 1 (bin 0), even
though the code's own comment says this bin should be 0. -/
theorem below_first_breakpoint_hits_last_bin :
    bin_index [0, 5, 10] (-1) = -1
    ∧ binned_rate (-1) [0, 5, 10] [1, 2, 3] = some 3
    ∧ binned_rate (-1) [0, 5, 10] [1, 2, 3] ≠ some 1 := by
  decide

/-- C2 (counterexample): the claim says the probability handed to every
stochastic Bernoulli filter in Deaths, Pregnancy, and PregnancyLite is
`clip(rate * units * rel * dt, 0, 1)` and so lies in [0,1].
`PregnancyLite.time_varying_ASFR` has no clipping step: an ASFR of 300 per
1000 with `dt = 4` produces probability 6/5 > 1. -/
theorem lite_asfr_prob_exceeds_one :
    time_varying_ASFR [15, 50] [300, 0] 20 (1/1000) 1 4 = some (6/5)
    ∧ ¬ ((6:ℚ)/5 ≤ 1) := by
  constructor
  · norm_num [time_varying_ASFR, npIndex, bin_index, digitize, List.countP,
      List.countP.go]
  · norm_num

/-- C2 (amended): the probabilities fed to the stochastic filters of `Deaths`
and of the full `Pregnancy` module are clipped to [0,1] and hence always lie
in [0,1], for every resolved rate, unit scale, relative multiplier and dt;
`PregnancyLite.time_varying_ASFR` omits the clip (see the counterexample). -/
theorem deaths_pregnancy_probs_in_unit_interval
    (death_rate units rel_death dt rate units2 rel_fertility dt2
      age min_age max_age : ℚ) (fecund infertile : Bool) :
    (0 ≤ death_prob death_rate units rel_death dt
      ∧ death_prob death_rate units rel_death dt ≤ 1)
    ∧ (0 ≤ fertility_prob rate units2 rel_fertility dt2 age min_age max_age
          fecund infertile
      ∧ fertility_prob rate units2 rel_fertility dt2 age min_age max_age
          fecund infertile ≤ 1) :=
  ⟨⟨clip01_nonneg _, clip01_le_one _⟩, ⟨clip01_nonneg _, clip01_le_one _⟩⟩

/-- C5: `Births.step` is deterministic: the number of agents added equals
`floor(alive_count * clip(birth_rate * units * rel_birth * dt, 0, 1))` with
no stochastic per-agent draw, the new agents all have age 0, and 1000 alive
agents with rate 30, units 1e-3, rel_birth 1 and dt 1 yield exactly 30 new
agents. -/
theorem births_step_deterministic (p : People) (birth_rate units rel_birth dt : ℚ) :
    (add_births p birth_rate units rel_birth dt).2
        = (⌊(p.ages.length : ℚ) * clip01 (birth_rate * units * rel_birth * dt)⌋).toNat
    ∧ (add_births p birth_rate units rel_birth dt).1.ages
        = p.ages ++ List.replicate (add_births p birth_rate units rel_birth dt).2 0
    ∧ get_births 1000 30 (1/1000) 1 1 = 30 := by
  refine ⟨rfl, rfl, ?_⟩
  norm_num [get_births, clip01]
  decide

/-! ## Theorems: claim C4 -/

theorem npSet_forall_nonneg {a : List ℚ} {v : ℚ} (ha : ∀ x ∈ a, 0 ≤ x)
    (hv : 0 ≤ v) (i : Int) : ∀ x ∈ npSet a i v, 0 ≤ x := by
  intro x hx
  unfold npSet at hx
  split at hx
  · rcases List.mem_or_eq_of_mem_set hx with h | h
    · exact ha x h
    · exact h ▸ hv
  · split at hx
    · rcases List.mem_or_eq_of_mem_set hx with h | h
      · exact ha x h
      · exact h ▸ hv
    · exact ha x hx

theorem scatterCounts_forall_nonneg (n : Nat) (idxs : List Int) :
    ∀ x ∈ scatterCounts n idxs, 0 ≤ x := by
  unfold scatterCounts
  have key : ∀ (l : List Int) (a : List ℚ), (∀ x ∈ a, 0 ≤ x) →
      ∀ x ∈ l.foldl (fun a v => npSet a v ((countOf idxs v : Nat) : ℚ)) a, 0 ≤ x := by
    intro l
    induction l with
    | nil => intro a ha x hx; exact ha x hx
    | cons y ys ih =>
      intro a ha x hx
      exact ih _ (npSet_forall_nonneg ha (by positivity) y) x hx
  intro x hx
  refine key _ _ ?_ x hx
  intro y hy
  rw [List.eq_of_mem_replicate hy]

theorem getD_zero_nonneg {l : List ℚ} (h : ∀ x ∈ l, 0 ≤ x) (j : Nat) :
    0 ≤ l.getD j 0 := by
  rcases hj : l.get? j with _ | a
  · simp [List.getD_eq_getElem?_getD, ← List.get?_eq_getElem?, hj]
  · have hm := h a (List.get?_mem hj)
    simpa [List.getD_eq_getElem?_getD, ← List.get?_eq_getElem?, hj] using hm

theorem zipWith_mul_forall_nonneg {l1 l2 : List ℚ}
    (h1 : ∀ x ∈ l1, 0 ≤ x) (h2 : ∀ x ∈ l2, 0 ≤ x) :
    ∀ x ∈ List.zipWith (fun a b => a * b) l1 l2, 0 ≤ x := by
  induction l1 generalizing l2 with
  | nil => simp
  | cons a as ih =>
    cases l2 with
    | nil => simp
    | cons b bs =>
      intro x hx
      rcases List.mem_cons.mp hx with h | h
      · subst h
        exact mul_nonneg (h1 a (List.mem_cons_self a as)) (h2 b (List.mem_cons_self b bs))
      · exact ih (fun y hy => h1 y (List.mem_cons_of_mem a hy))
          (fun y hy => h2 y (List.mem_cons_of_mem b hy)) x h

theorem getD_range_map (n j : Nat) (f : Nat → ℚ) (hj : j < n) :
    ((List.range n).map f).getD j 0 = f j := by
  rw [List.getD_eq_getElem?_getD, List.getElem?_map, List.getElem?_range hj]
  rfl

/-- C4 (counterexample): the claim says that when some agents are pregnant
and a bin's adjusted denominator is zero or negative, the resolved fertility
rate for that bin is zero. With breakpoints `[10, 20]`, base rates `[5, 7]`,
one queried woman of age 15 who is also the one pregnant woman, the bin-0
denominator is 0, yet the resolved rate is the unadjusted 5, not 0
(`np.divide(..., where=..., out=new_rate)` keeps `out`'s prior value). -/
theorem zero_denominator_keeps_base_rate :
    (adj_denom [10, 20] [15] [15]).getD 0 0 = 0
    ∧ (rescaled_rates [10, 20] [5, 7] [15] [15]).getD 0 0 = 5
    ∧ (5:ℚ) ≠ 0 := by
  have hbc : bin_counts [10, 20] [15] = [(1:ℚ), 0] := by decide
  have hd : adj_denom [10, 20] [15] [15] = [0, 0] := by
    rw [adj_denom, hbc]
    norm_num
  have hrange : List.range 2 = [0, 1] := rfl
  have hr : rescaled_rates [10, 20] [5, 7] [15] [15] = [5, 7] := by
    rw [rescaled_rates]
    simp only [List.isEmpty_cons, if_false, Bool.false_eq_true, List.length_cons,
      List.length_nil, hd, hrange, List.map_cons, List.map_nil]
    norm_num
  rw [hd, hr]
  norm_num

/-- C4 (amended): in `Pregnancy.make_fertility_prob_fn`, when any agents are
pregnant and a bin's adjusted denominator (bin population minus pregnant
count) is zero or negative, the resolved rate for that bin is left at the
*unadjusted* table rate (no division occurs); and for nonnegative table
rates the resolved rate of every bin is nonnegative, so no negative
probability is ever produced. -/
theorem rescaled_rates_guarded (bins base_rates ages preg_ages : List ℚ)
    (j : Nat) (hpreg : preg_ages ≠ []) (hj : j < bins.length)
    (hr : ∀ r ∈ base_rates, 0 ≤ r) :
    ((adj_denom bins ages preg_ages).getD j 0 ≤ 0 →
      (rescaled_rates bins base_rates ages preg_ages).getD j 0
        = base_rates.getD j 0)
    ∧ 0 ≤ (rescaled_rates bins base_rates ages preg_ages).getD j 0 := by
  have hne : preg_ages.isEmpty = false := by
    cases preg_ages with
    | nil => exact absurd rfl hpreg
    | cons a l => rfl
  have hnum : 0 ≤ (num_to_make bins base_rates ages).getD j 0 := by
    refine getD_zero_nonneg ?_ j
    exact zipWith_mul_forall_nonneg hr (scatterCounts_forall_nonneg _ _)
  unfold rescaled_rates
  rw [hne]
  simp only [Bool.false_eq_true, if_false, getD_range_map _ _ _ hj]
  constructor
  · intro hden
    rw [if_neg (not_lt.mpr hden)]
  · split
    · next hpos => exact div_nonneg hnum hpos.le
    · exact getD_zero_nonneg hr j

/-- Witness for `rescaled_rates_guarded` at bins `[10, 20]`, base rates
`[5, 7]`, queried ages `[15]`, pregnant ages `[15]`, bin 0. -/
theorem rescaled_rates_guarded_witness :
    (((adj_denom [10, 20] [15] [15]).getD 0 0 ≤ 0 →
      (rescaled_rates [10, 20] [5, 7] [15] [15]).getD 0 0
        = ([5, 7] : List ℚ).getD 0 0)
    ∧ 0 ≤ (rescaled_rates [10, 20] [5, 7] [15] [15]).getD 0 0) :=
  rescaled_rates_guarded [10, 20] [5, 7] [15] [15] 0
    (by decide) (by decide) (by decide)

/-! ## Theorems: claim C3 -/

/-- C3: each `Pregnancy` state-changing operation — `update_states`,
`set_prognoses` (on a conception set of fecund agents, which is what the
fertility filter can select, since the fertility probability of a
non-fecund agent is zeroed — fourth conjunct), and `update_death` —
preserves the invariant that at most one of fecund, pregnant, postpartum
is true for every agent. -/
theorem pregnancy_exclusivity_preserved (s : PregState) (ti dur_preg : ℚ)
    (uids death_uids : List Nat) (dur_pp : Nat → ℚ) (dead : Nat → Bool)
    (age : Nat → ℚ) (parent : Nat → Nat)
    (hs : exclusive s) (hsel : ∀ u ∈ uids, s.fecund u = true) :
    exclusive (update_states s ti)
    ∧ exclusive (set_prognoses s uids ti dur_preg dur_pp dead)
    ∧ exclusive (update_death s death_uids age parent)
    ∧ (∀ rate units rel dt a mn mx inf,
        fertility_prob rate units rel dt a mn mx false inf = 0) := by
  refine ⟨?_, ?_, ?_, ?_⟩
  · intro u
    have h := hs u
    unfold atMostOne at h ⊢
    simp only [update_states]
    cases hf : s.fecund u <;> cases hp : s.pregnant u <;>
      cases hpp : s.postpartum u <;>
      cases hld : leNan (s.ti_delivery u) ti <;>
      cases hlp : leNan (s.ti_postpartum u) ti <;>
      simp_all [deliveries, pp_exit]
  · intro u
    have h := hs u
    unfold atMostOne at h ⊢
    simp only [set_prognoses]
    by_cases hu : u ∈ uids
    · have hf : s.fecund u = true := hsel u hu
      have hpp : s.postpartum u = false := by
        cases hpp : s.postpartum u
        · rfl
        · rw [hf, hpp] at h; simp at h
      simp [hu, hpp]
    · simpa [hu] using h
  · intro u
    have h := hs u
    unfold atMostOne at h ⊢
    simp only [update_death]
    by_cases hu : u ∈ (death_uids.filter (fun v => decide (age v < 0))).map parent
    · simp [hu]
    · simpa [hu] using h
  · intro rate units rel dt a mn mx inf
    norm_num [fertility_prob, clip01]

/-- Witness for `pregnancy_exclusivity_preserved` on the all-default state
with conception set `[0]`. -/
theorem pregnancy_exclusivity_preserved_witness :
    exclusive (update_states pregState0 0)
    ∧ exclusive (set_prognoses pregState0 [0] 0 1 (fun _ => 1) (fun _ => false))
    ∧ exclusive (update_death pregState0 [] (fun _ => 0) (fun _ => 0))
    ∧ (∀ rate units rel dt a mn mx inf,
        fertility_prob rate units rel dt a mn mx false inf = 0) :=
  pregnancy_exclusivity_preserved pregState0 0 1 [0] [] (fun _ => 1)
    (fun _ => false) (fun _ => 0) (fun _ => 0)
    (fun _ => by simp [pregState0, atMostOne])
    (fun _ _ => rfl)

/-! ## Theorems: claim C6 -/

/-- C6: `Pregnancy.make_pregnancies` raises if and only if the fertility
filter selected an already-pregnant agent; when no selected agent is
pregnant it returns normally, with prognoses assigned to exactly the
selected agents (all other agents keep their previous state). -/
theorem make_pregnancies_error_iff (s : PregState) (conceive_uids : List Nat)
    (ti dur_preg : ℚ) (dur_pp : Nat → ℚ) (dead : Nat → Bool) :
    ((∃ e, make_pregnancies s conceive_uids ti dur_preg dur_pp dead
        = Except.error e)
      ↔ ∃ u ∈ conceive_uids, s.pregnant u = true)
    ∧ ((∀ u ∈ conceive_uids, s.pregnant u = false) →
      ∃ s2, make_pregnancies s conceive_uids ti dur_preg dur_pp dead
          = Except.ok s2
        ∧ (∀ u, s2.pregnant u
            = if u ∈ conceive_uids then true else s.pregnant u)
        ∧ (∀ u, s2.ti_pregnant u
            = if u ∈ conceive_uids then some ti else s.ti_pregnant u)
        ∧ (∀ u, s2.ti_delivery u
            = if u ∈ conceive_uids then some (ti + dur_preg)
              else s.ti_delivery u)) := by
  have hany : (conceive_uids.any (fun u => s.pregnant u) = true)
      ↔ ∃ u ∈ conceive_uids, s.pregnant u = true := by
    simp [List.any_eq_true]
  constructor
  · constructor
    · rintro ⟨e, he⟩
      unfold make_pregnancies at he
      by_cases hA : conceive_uids.any (fun u => s.pregnant u) = true
      · exact hany.mp hA
      · rw [if_neg (by simp [hA])] at he
        split at he <;> exact absurd he (by simp)
    · intro hex
      refine ⟨"New conceptions registered in pregnant agent(s)", ?_⟩
      unfold make_pregnancies
      rw [if_pos (by simp [hany.mpr hex])]
  · intro hnone
    have hA : conceive_uids.any (fun u => s.pregnant u) = false := by
      simp only [List.any_eq_false]
      intro u hu
      simp [hnone u hu]
    unfold make_pregnancies
    rw [if_neg (by simp [hA])]
    by_cases hlen : 0 < conceive_uids.length
    · rw [if_pos hlen]
      refine ⟨_, rfl, ?_, ?_, ?_⟩ <;> intro u <;> simp [set_prognoses]
    · have hnil : conceive_uids = [] :=
        List.length_eq_zero.mp (Nat.eq_zero_of_not_pos hlen)
      subst hnil
      rw [if_neg hlen]
      exact ⟨s, rfl, fun u => by simp, fun u => by simp, fun u => by simp⟩

/-- Witness for `make_pregnancies_error_iff`: on the all-default state the
selection `[0]` contains no pregnant agent, so the call returns normally
and marks exactly agent 0 pregnant. -/
theorem make_pregnancies_error_iff_witness :
    ∃ s2, make_pregnancies pregState0 [0] 0 1 (fun _ => 1) (fun _ => false)
        = Except.ok s2
      ∧ (∀ u, s2.pregnant u
          = if u ∈ ([0] : List Nat) then true else pregState0.pregnant u)
      ∧ (∀ u, s2.ti_pregnant u
          = if u ∈ ([0] : List Nat) then some 0 else pregState0.ti_pregnant u)
      ∧ (∀ u, s2.ti_delivery u
          = if u ∈ ([0] : List Nat) then some (0 + 1)
            else pregState0.ti_delivery u) :=
  (make_pregnancies_error_iff pregState0 [0] 0 1 (fun _ => 1)
    (fun _ => false)).2 (fun _ _ => rfl)

/-! ## Theorems: claim C9 -/

/-- C9 (counterexample): the claim says `Pregnancy.set_prognoses` and
`PregnancyLite.set_prognoses` assign equal `ti_delivery` for the same
conception step, gestation duration, dt and postpartum duration. With
ti = 0, gestation duration 3/4, dt = 1/2 and postpartum duration 1/2, the
full module stores `ti_delivery = 0 + 3/4` while the Lite module stores
`ti_delivery = 0 + (3/4)/(1/2) = 3/2` (it divides durations by dt): they
disagree. -/
theorem set_prognoses_full_vs_lite_differ :
    (set_prognoses pregState0 [0] 0 (3/4) (fun _ => (1:ℚ)/2)
        (fun _ => false)).ti_delivery 0 = some (3/4)
    ∧ (lite_set_prognoses liteState0 [0] 0 (3/4) (1/2)
        (fun _ => (1:ℚ)/2)).ti_delivery 0 = some (3/2)
    ∧ some ((3:ℚ)/4) ≠ some ((3:ℚ)/2) := by
  refine ⟨?_, ?_, by norm_num⟩
  · simp only [set_prognoses, List.mem_singleton, if_pos rfl]
    norm_num
  · simp only [lite_set_prognoses, List.mem_singleton, if_pos rfl]
    norm_num

/-- C9 (amended): when `dt = 1` (and only up to the missing `/dt` in the
full module), `Pregnancy.set_prognoses` and `PregnancyLite.set_prognoses`
assign equal prognoses to every selected agent:
`ti_delivery = ti + dur_preg` and `ti_postpartum = ti_delivery + dur_pp`. -/
theorem set_prognoses_agree_when_dt_one (s : PregState) (l : LiteState)
    (uids : List Nat) (ti dur_preg dt : ℚ) (dur_pp : Nat → ℚ)
    (dead : Nat → Bool) (hdt : dt = 1) (u : Nat) (hu : u ∈ uids) :
    (set_prognoses s uids ti dur_preg dur_pp dead).ti_delivery u
        = some (ti + dur_preg)
    ∧ (lite_set_prognoses l uids ti dur_preg dt dur_pp).ti_delivery u
        = some (ti + dur_preg)
    ∧ (set_prognoses s uids ti dur_preg dur_pp dead).ti_postpartum u
        = some ((ti + dur_preg) + dur_pp u)
    ∧ (lite_set_prognoses l uids ti dur_preg dt dur_pp).ti_postpartum u
        = some ((ti + dur_preg) + dur_pp u) := by
  subst hdt
  simp [set_prognoses, lite_set_prognoses, hu]

/-- Witness for `set_prognoses_agree_when_dt_one` at ti = 0, gestation
duration 2, dt = 1, postpartum duration 1 and agent 0. -/
theorem set_prognoses_agree_when_dt_one_witness :
    (set_prognoses pregState0 [0] 0 2 (fun _ => 1)
        (fun _ => false)).ti_delivery 0 = some (0 + 2)
    ∧ (lite_set_prognoses liteState0 [0] 0 2 1 (fun _ => 1)).ti_delivery 0
        = some (0 + 2)
    ∧ (set_prognoses pregState0 [0] 0 2 (fun _ => 1)
        (fun _ => false)).ti_postpartum 0 = some ((0 + 2) + 1)
    ∧ (lite_set_prognoses liteState0 [0] 0 2 1 (fun _ => 1)).ti_postpartum 0
        = some ((0 + 2) + 1) :=
  set_prognoses_agree_when_dt_one pregState0 liteState0 [0] 0 2 1
    (fun _ => 1) (fun _ => false) rfl 0 (by decide)

/-! ## Theorems: claim C7 -/

theorem getD_map_of_lt (l : List ℚ) (f : ℚ → ℚ) (i : Nat) (hi : i < l.length) :
    (l.map f).getD i 0 = f (l.getD i 0) := by
  rw [List.getD_eq_getElem?_getD, List.getElem?_map, List.getElem?_eq_getElem hi,
    List.getD_eq_getElem?_getD, List.getElem?_eq_getElem hi]
  rfl

theorem npDivideWherePos_length (a b junk : List ℚ) :
    (npDivideWherePos a b junk).length = a.length := by
  simp [npDivideWherePos]

theorem npDivideWherePos_getD (a b junk : List ℚ) (i : Nat)
    (hi : i < a.length) :
    (npDivideWherePos a b junk).getD i 0
      = if 0 < b.getD i 0 then a.getD i 0 / b.getD i 0 else junk.getD i 0 := by
  rw [npDivideWherePos]
  exact getD_range_map _ _ _ hi

/-- C7 (counterexample): the claim says the crude-birth-rate series equals
`new / dt_year / alive` where alive is positive and 0 where it is zero.
With `new = [3, 0]`, `n_alive = [1000, 0]`, `dt_year = 1`, the default
`units = 1/1000` and an uninitialized buffer holding `[0, 7]`, the code
yields `[3, 7000]`: entry 0 is `3`, not the claimed `3/1000` (the claim
drops the `1/units` factor), and entry 1 is scaled buffer garbage, not 0
(`np.divide` without `out=` leaves unmasked entries uninitialized). -/
theorem cbr_units_factor_and_uninitialized :
    births_cbr [3, 0] [1000, 0] [0, 7] 1 (1/1000) = [3, 7000]
    ∧ ((3:ℚ) ≠ 3/1000) ∧ ((7000:ℚ) ≠ 0) := by
  have hrange : List.range 2 = [0, 1] := rfl
  refine ⟨?_, by norm_num, by norm_num⟩
  rw [births_cbr, npDivideWherePos]
  norm_num [hrange]

/-- C7 (amended): after `Births.finalize`, at every index where the alive
count is positive the crude birth rate equals
`1/units * (new / dt_year / alive)` — the claim's formula times the
`1/units` normalization — and at every index where the alive count is not
positive it equals `1/units` times the corresponding entry of the
uninitialized division buffer, i.e. it is unspecified rather than 0. -/
theorem births_cbr_formula (new n_alive junk : List ℚ) (dt_year units : ℚ)
    (i : Nat) (hi : i < new.length) :
    (0 < n_alive.getD i 0 →
      (births_cbr new n_alive junk dt_year units).getD i 0
        = 1 / units * (new.getD i 0 / dt_year / n_alive.getD i 0))
    ∧ (n_alive.getD i 0 ≤ 0 →
      (births_cbr new n_alive junk dt_year units).getD i 0
        = 1 / units * junk.getD i 0) := by
  have hlen : i < (new.map (fun x => x / dt_year)).length := by simpa using hi
  have h1 : (births_cbr new n_alive junk dt_year units).getD i 0
      = 1 / units
        * ((npDivideWherePos (new.map (fun x => x / dt_year)) n_alive
            junk).getD i 0) := by
    rw [births_cbr]
    exact getD_map_of_lt _ _ i (by rw [npDivideWherePos_length]; exact hlen)
  have h2 := npDivideWherePos_getD (new.map (fun x => x / dt_year)) n_alive
    junk i hlen
  have h3 : (new.map (fun x => x / dt_year)).getD i 0
      = new.getD i 0 / dt_year := getD_map_of_lt _ _ i hi
  constructor
  · intro hpos
    rw [h1, h2, h3, if_pos hpos]
  · intro hnp
    rw [h1, h2, if_neg (not_lt.mpr hnp)]

/-- Witness for `births_cbr_formula` on `new = [3, 0]`,
`n_alive = [1000, 0]`, buffer `[0, 7]`, `dt_year = 1`, `units = 1/1000`,
at indices 0 (alive positive) and 1 (alive zero). -/
theorem births_cbr_formula_witness :
    ((births_cbr [3, 0] [1000, 0] [0, 7] 1 (1/1000)).getD 0 0
      = 1 / (1/1000)
        * (([3, 0] : List ℚ).getD 0 0 / 1 / ([1000, 0] : List ℚ).getD 0 0))
    ∧ ((births_cbr [3, 0] [1000, 0] [0, 7] 1 (1/1000)).getD 1 0
      = 1 / (1/1000) * (([0, 7] : List ℚ).getD 1 0)) :=
  ⟨(births_cbr_formula [3, 0] [1000, 0] [0, 7] 1 (1/1000) 0
      (by norm_num)).1 (by norm_num),
   (births_cbr_formula [3, 0] [1000, 0] [0, 7] 1 (1/1000) 1
      (by norm_num)).2 (by norm_num)⟩

/-! ## Theorems: claim C8 -/

/-- C8 (counterexample): the claim says burn-in runs the per-step update for
each of the `ceil(dur_pregnancy / dt)` indices `-ceil(dur_pregnancy / dt)`
through `-1` before the regular update at index 0. With the default
gestation duration 3/4 of a year and `dt = 1`, `ceil(3/4) = 1`, yet
`np.arange(np.ceil(-0.75), 0) = np.arange(0, 0)` is empty: no burn-in step
runs at all, and the update sequence is just `[0]`, not `[-1, 0]`. -/
theorem burnin_runs_floor_not_ceil :
    burnin_dtis (3/4) 1 = []
    ∧ ⌈(3:ℚ)/4 / 1⌉ = 1
    ∧ update_run_tis 0 true (3/4) 1 = [0]
    ∧ update_run_tis 0 true (3/4) 1 ≠ [-1, 0] := by
  have hc : ⌈-(3/4 : ℚ) / 1⌉ = 0 := by norm_num
  have hb : burnin_dtis (3/4) 1 = [] := by
    rw [burnin_dtis, hc]
    rfl
  have hone : ⌈(3:ℚ)/4 / 1⌉ = 1 := by
    rw [Int.ceil_eq_iff]
    norm_num
  refine ⟨hb, hone, ?_, ?_⟩
  · rw [update_run_tis, if_pos ⟨rfl, rfl⟩, hb]
    rfl
  · rw [update_run_tis, if_pos ⟨rfl, rfl⟩, hb]
    decide

/-- C8 (amended): with burn-in enabled and the update entered at time index
zero, `do_update` runs once at each of the `floor(dur_pregnancy / dt)`
timestep indices `-floor(dur_pregnancy / dt), ..., -1` (all strictly
negative) before the regular update at index zero — `floor`, not `ceil`,
because `np.ceil(-x) = -floor(x)`. -/
theorem burnin_count_is_floor (dur_pregnancy dt : ℚ)
    (hdt : 0 < dt) (hdur : 0 ≤ dur_pregnancy) :
    update_run_tis 0 true dur_pregnancy dt
      = (List.range (⌊dur_pregnancy / dt⌋).toNat).map
          (fun k : Nat => -⌊dur_pregnancy / dt⌋ + (k : Int)) ++ [0]
    ∧ ∀ t ∈ burnin_dtis dur_pregnancy dt,
        -⌊dur_pregnancy / dt⌋ ≤ t ∧ t < 0 := by
  have hceil : ⌈-dur_pregnancy / dt⌉ = -⌊dur_pregnancy / dt⌋ := by
    rw [neg_div, Int.ceil_neg]
  have hfl : 0 ≤ ⌊dur_pregnancy / dt⌋ :=
    Int.floor_nonneg.mpr (div_nonneg hdur hdt.le)
  constructor
  · rw [update_run_tis, if_pos ⟨rfl, rfl⟩, burnin_dtis, hceil]
    have hn : (0 - -⌊dur_pregnancy / dt⌋).toNat
        = (⌊dur_pregnancy / dt⌋).toNat := by omega
    rw [hn]
  · intro t ht
    rw [burnin_dtis] at ht
    rcases List.mem_map.mp ht with ⟨k, hk, rfl⟩
    rw [List.mem_range] at hk
    rw [hceil] at hk ⊢
    omega

/-- Witness for `burnin_count_is_floor` at gestation duration 2 years and
`dt = 1`: two burn-in steps at indices -2 and -1, then the update at 0. -/
theorem burnin_count_is_floor_witness :
    (update_run_tis 0 true 2 1
      = (List.range (⌊(2:ℚ) / 1⌋).toNat).map
          (fun k : Nat => -⌊(2:ℚ) / 1⌋ + (k : Int)) ++ [0])
    ∧ ∀ t ∈ burnin_dtis 2 1, -⌊(2:ℚ) / 1⌋ ≤ t ∧ t < 0 :=
  burnin_count_is_floor 2 1 (by norm_num) (by norm_num)

/-! ## Theorems: claim C10 -/

/-- C10: with the default metadata, `Births` can never successfully consume
frame-shaped birth-rate data: for every frame the standardized input may
become, either `standardize_birth_data` raises (`.xs(0, level='age')` on a
frame without an `'age'` index level), or the `.xs` succeeds and
`Births.init_pre` raises a `KeyError` — the default `data_cols` defines
only the keys `'year'` and `'value'`, so `data_cols['cbr']` is missing. -/
theorem births_cannot_consume_frames (g : Frame) :
    (∃ e, standardize_birth_data g = Except.error e)
    ∨ (∃ g2, standardize_birth_data g = Except.ok g2
        ∧ ∃ e, births_init_pre g2 = Except.error e) := by
  by_cases hage : "age" ∈ g.indexLevels
  · right
    refine ⟨_, by rw [standardize_birth_data, xs_age, if_pos hage], ?_⟩
    have hcbr : lookup_data_col "cbr" = none := by decide
    have hyear : lookup_data_col "year" = some "Year" := by decide
    simp only [births_init_pre, hyear, hcbr]
    by_cases hy : "Year" ∈ g.cols
    · rw [if_pos hy]
      exact ⟨_, rfl⟩
    · rw [if_neg hy]
      exact ⟨_, rfl⟩
  · left
    exact ⟨_, by rw [standardize_birth_data, xs_age, if_neg hage]⟩

end Starsim
